import Mathlib

/-!
Verification development for the beacon monitor subsystem.

The Go sources of the monitor package are shallowly embedded below:

* `time.Time` values are modelled as `Int` nanoseconds since the Unix epoch
  (`t1.After t2` becomes `t2 < t1`, `t1.Sub t2` becomes `t1 - t2`);
  `time.Now()` is modelled as an explicit `now : Int` input.
* byte strings handled line-wise are modelled as `List Char`; only the ASCII
  and Latin-1 whitespace that `strings.TrimSpace` strips is modelled.
* the `regexp` engine used for user-supplied include/exclude patterns is
  abstracted as a match oracle `re : List Char → List Char → Bool`
  (pattern → line → matched); theorems quantify over every oracle.
  The seven fixed timestamp regexes of `parseLogTimestamp` are embedded
  concretely as deterministic scanners (each of those anchored patterns is
  a concatenation of fixed-width pieces and greedy runs over disjoint
  character classes, so the scanners compute exactly the RE2 match).
* external effects (docker subprocess output, HTTP transport, TCP dial,
  `sh -c` execution) are modelled as explicit environment records whose
  fields carry the observable outcome; theorems quantify over them.
* the SHA-256 digest used for log deduplication is modelled as the identity
  injection of its preimage string (collision-free model).
-/

namespace Beacon

/-! ### Time model -/

def nsPerSecond : Int := 1000000000

/-- `time.Hour` as nanoseconds. -/
def hourNs : Int := 3600 * nsPerSecond

/-- Leap year in the proleptic Gregorian calendar, as Go `isLeap`. -/
def isLeap (y : Int) : Bool := y % 4 = 0 && (y % 100 ≠ 0 || y % 400 = 0)

/-- Days in a month, as Go `daysIn` (used by `time.Parse` day validation). -/
def daysInMonth (y m : Int) : Int :=
  if m = 2 then (if isLeap y then 29 else 28)
  else if m = 4 ∨ m = 6 ∨ m = 9 ∨ m = 11 then 30
  else 31

/-- Days from the Unix epoch to the civil date `y-m-d` (proleptic Gregorian);
    the standard civil-from-days inverse algorithm, written with floor
    division so the era adjustment is uniform over negative years. -/
def civilDays (y m d : Int) : Int :=
  let y' := if m ≤ 2 then y - 1 else y
  let era := Int.fdiv y' 400
  let yoe := y' - era * 400
  let mp := (m + 9) % 12
  let doy := (153 * mp + 2) / 5 + d - 1
  let doe := yoe * 365 + yoe / 4 - yoe / 100 + doy
  era * 146097 + doe - 719468

/-- Nanoseconds since the Unix epoch of the instant
    `y-m-d h:mi:s.nanos` at UTC offset `off` seconds. -/
def epochNs (y m d h mi s nanos off : Int) : Int :=
  (civilDays y m d * 86400 + h * 3600 + mi * 60 + s - off) * nsPerSecond + nanos

/-! ### Character and line utilities -/

/-- The character class `\s` of Go RE2: `[\t\n\f\r ]`. -/
def isGoSpace (c : Char) : Bool :=
  c = ' ' || c = '\t' || c = '\n' || c = '\r' || c = '\x0c'

/-- The Latin-1 range of `unicode.IsSpace`, the set stripped by
    `strings.TrimSpace` (wider Unicode spaces are not modelled). -/
def isCutSpace (c : Char) : Bool :=
  c = ' ' || c = '\t' || c = '\n' || c = '\x0b' || c = '\x0c' || c = '\r' ||
  c = '\x85' || c = '\xa0'

/-- `strings.TrimSpace`. -/
def trimChars (cs : List Char) : List Char :=
  ((cs.dropWhile isCutSpace).reverse.dropWhile isCutSpace).reverse

/-- `strings.Split(s, "\n")`: the newline-separated segments of `cs`,
    delimiters removed; always non-empty (the empty string splits to `[""]`). -/
def splitNL (cs : List Char) : List (List Char) :=
  cs.foldr
    (fun c acc =>
      if c = '\n' then [] :: acc
      else
        match acc with
        | s :: rest => (c :: s) :: rest
        | [] => [[c]])
    [[]]

/-- Does `cs` start with `pat`? (`strings.HasPrefix`). -/
def startsWithSeq (pat cs : List Char) : Bool :=
  match pat, cs with
  | [], _ => true
  | _ :: _, [] => false
  | p :: ps, c :: cs' => p = c && startsWithSeq ps cs'

/-- `strings.Contains(cs, pat)`. -/
def containsSeq (pat : List Char) : List Char → Bool
  | [] => pat.isEmpty
  | c :: cs => startsWithSeq pat (c :: cs) || containsSeq pat cs

/-! ### Timestamp pattern scanners

Each scanner consumes the timestamp prefix matched by the corresponding
anchored regex of `parseLogTimestamp` and returns the rest of the line,
or `none` when the regex does not match. -/

/-- Exactly `n` decimal digits. -/
def scanDigits : Nat → List Char → Option (List Char)
  | 0, cs => some cs
  | _ + 1, [] => none
  | n + 1, c :: cs => if c.isDigit then scanDigits n cs else none

/-- A single literal character. -/
def scanChar (c : Char) : List Char → Option (List Char)
  | [] => none
  | c' :: cs => if c' = c then some cs else none

/-- One or more `\s` characters (greedy). -/
def scanSpaces1 (cs : List Char) : Option (List Char) :=
  match cs with
  | [] => none
  | c :: cs' => if isGoSpace c then some (cs'.dropWhile isGoSpace) else none

/-- `hh:mm:ss` (`\d{2}:\d{2}:\d{2}`). -/
def scanHMS (cs : List Char) : Option (List Char) :=
  scanDigits 2 cs >>= scanChar ':' >>= scanDigits 2 >>= scanChar ':' >>= scanDigits 2

/-- `\d{4}-\d{2}-\d{2}`. -/
def scanDate (cs : List Char) : Option (List Char) :=
  scanDigits 4 cs >>= scanChar '-' >>= scanDigits 2 >>= scanChar '-' >>= scanDigits 2

/-- The optional fractional-second group `(?:\.\d+)?` (greedy, ≥ 1 digit). -/
def scanOptFrac (cs : List Char) : Option (List Char) :=
  match cs with
  | '.' :: r =>
    match r with
    | c :: _ => if c.isDigit then some (r.dropWhile Char.isDigit) else none
    | [] => none
  | _ => some cs

/-- The optional zone group `(?:Z|[+-]\d{2}:\d{2})?`. -/
def scanOptZone (cs : List Char) : Option (List Char) :=
  match cs with
  | 'Z' :: r => some r
  | c :: r =>
    if c = '+' ∨ c = '-' then scanDigits 2 r >>= scanChar ':' >>= scanDigits 2
    else some (c :: r)
  | [] => some []

/-- Regex 1: `\d{4}-\d{2}-\d{2}T\d{2}:\d{2}:\d{2}(?:\.\d+)?(?:Z|[+-]\d{2}:\d{2})?`. -/
def scanRFC3339NanoTs (cs : List Char) : Option (List Char) :=
  scanDate cs >>= scanChar 'T' >>= scanHMS >>= scanOptFrac >>= scanOptZone

/-- Regex 2: `\d{4}-\d{2}-\d{2}T\d{2}:\d{2}:\d{2}Z`. -/
def scanRFC3339Ts (cs : List Char) : Option (List Char) :=
  scanDate cs >>= scanChar 'T' >>= scanHMS >>= scanChar 'Z'

/-- `\w` of Go RE2: `[0-9A-Za-z_]`. -/
def isWordChar (c : Char) : Bool := c.isAlphanum || c = '_'

/-- `\d{1,2}` followed (in context) by `\s`: greedy with the one backtrack. -/
def scanDay12 (cs : List Char) : Option (List Char) :=
  match cs with
  | [] => none
  | c :: r =>
    if c.isDigit then
      match r with
      | c2 :: r2 => if c2.isDigit then some r2 else some r
      | [] => some r
    else none

/-- Regex 3 (syslog): `\w{3}\s+\d{1,2}\s+\d{2}:\d{2}:\d{2}`. -/
def scanSyslogTs (cs : List Char) : Option (List Char) :=
  match cs with
  | a :: b :: c :: r =>
    if isWordChar a && isWordChar b && isWordChar c then
      scanSpaces1 r >>= scanDay12 >>= scanSpaces1 >>= scanHMS
    else none
  | _ => none

/-- Shared base of regexes 4 and 5: `\d{4}-\d{2}-\d{2}\s+\d{2}:\d{2}:\d{2}`. -/
def scanISOBase (cs : List Char) : Option (List Char) :=
  scanDate cs >>= scanSpaces1 >>= scanHMS

/-- Regex 4 (ISO 8601 without milliseconds). -/
def scanISOTs (cs : List Char) : Option (List Char) := scanISOBase cs

/-- Regex 5 (ISO 8601 with milliseconds): base followed by `\.\d{3}`. -/
def scanISOMsTs (cs : List Char) : Option (List Char) :=
  scanISOBase cs >>= scanChar '.' >>= scanDigits 3

/-- Regex 6: `\d{10}`. -/
def scanUnixTs (cs : List Char) : Option (List Char) := scanDigits 10 cs

/-- Regex 7: `\d{13}`. -/
def scanUnixMsTs (cs : List Char) : Option (List Char) := scanDigits 13 cs

/-- `regexp.FindStringSubmatch` for the anchored two-group patterns
    `^(<ts>)\s+(.*)`: runs the timestamp scanner, then requires at least one
    `\s`, and captures the remaining text up to an embedded newline (`.`
    does not match `\n`). Returns `(timestamp capture, content capture)`. -/
def matchTsPattern (scan : List Char → Option (List Char)) (cs : List Char) :
    Option (List Char × List Char) :=
  match scan cs with
  | none => none
  | some rest =>
    match rest with
    | [] => none
    | c :: _ =>
      if isGoSpace c then
        some (cs.take (cs.length - rest.length),
              (rest.dropWhile isGoSpace).takeWhile (fun c' => c' ≠ '\n'))
      else none

/-! ### `time.Parse` on the captured timestamp strings

The parsers below embed `time.Parse(layout, capture)` for the five layouts
of `parseLogTimestamp` and `strconv.ParseInt` + `time.Unix` for the two Unix
layouts.  They are total on `List Char`; on every capture produced by the
scanners above they agree with Go (shapes outside the corresponding regex
language are never fed to them).  Validation mirrors Go: month 1–12, day
1–`daysIn(month, year)`, hour ≤ 23, minute ≤ 59, second ≤ 59; numeric zone
offsets are not range-checked; a literal space in a layout matches a run of
spaces in the value (so a tab where the layout has a space is an error). -/

/-- Numeric value of a digit string (the scanners guarantee digits). -/
def digitsVal (cs : List Char) : Int :=
  cs.foldl (fun acc c => acc * 10 + (Int.ofNat c.toNat - 48)) 0

/-- Read exactly `n` digits and their value. -/
def readDigits (n : Nat) (cs : List Char) : Option (Int × List Char) :=
  match scanDigits n cs with
  | none => none
  | some rest => some (digitsVal (cs.take n), rest)

/-- Read a literal character. -/
def readChar (c : Char) (cs : List Char) : Option (List Char) := scanChar c cs

/-- A run of one or more `' '` (Go `time.Parse` layout-space semantics). -/
def readSpaceRun (cs : List Char) : Option (List Char) :=
  match cs with
  | ' ' :: r => some (r.dropWhile (fun c => c = ' '))
  | _ => none

/-- `hh:mm:ss` with values. -/
def readHMS (cs : List Char) : Option (Int × Int × Int × List Char) :=
  match readDigits 2 cs with
  | none => none
  | some (h, r1) =>
    match readChar ':' r1 with
    | none => none
    | some r2 =>
      match readDigits 2 r2 with
      | none => none
      | some (mi, r3) =>
        match readChar ':' r3 with
        | none => none
        | some r4 =>
          match readDigits 2 r4 with
          | none => none
          | some (s, r5) => some (h, mi, s, r5)

/-- `yyyy-mm-dd` with values. -/
def readDate (cs : List Char) : Option (Int × Int × Int × List Char) :=
  match readDigits 4 cs with
  | none => none
  | some (y, r1) =>
    match readChar '-' r1 with
    | none => none
    | some r2 =>
      match readDigits 2 r2 with
      | none => none
      | some (m, r3) =>
        match readChar '-' r3 with
        | none => none
        | some r4 =>
          match readDigits 2 r4 with
          | none => none
          | some (d, r5) => some (y, m, d, r5)

/-- Go `time.Parse` date/time range validation. -/
def validDateTime (y m d h mi s : Int) : Bool :=
  1 ≤ m && m ≤ 12 && 1 ≤ d && d ≤ daysInMonth y m &&
  0 ≤ h && h ≤ 23 && 0 ≤ mi && mi ≤ 59 && 0 ≤ s && s ≤ 59

/-- Nanoseconds from the digits of a fractional second
    (`parseNanoseconds`: at most nine digits are significant). -/
def nanosOfFrac (ds : List Char) : Int :=
  digitsVal (ds.take 9) * Int.ofNat (10 ^ (9 - min 9 ds.length))

/-- Optional fractional second `.d+` with value. -/
def readOptFrac (cs : List Char) : Option (Int × List Char) :=
  match cs with
  | '.' :: r =>
    match r with
    | c :: _ =>
      if c.isDigit then
        some (nanosOfFrac (r.takeWhile Char.isDigit), r.dropWhile Char.isDigit)
      else none
    | [] => none
  | _ => some (0, cs)

/-- Required zone `Z` or `±hh:mm`, as offset seconds (not range-checked). -/
def readZone (cs : List Char) : Option (Int × List Char) :=
  match cs with
  | 'Z' :: r => some (0, r)
  | '+' :: r =>
    match readDigits 2 r with
    | none => none
    | some (oh, r1) =>
      match readChar ':' r1 with
      | none => none
      | some r2 =>
        match readDigits 2 r2 with
        | none => none
        | some (om, r3) => some (oh * 3600 + om * 60, r3)
  | '-' :: r =>
    match readDigits 2 r with
    | none => none
    | some (oh, r1) =>
      match readChar ':' r1 with
      | none => none
      | some r2 =>
        match readDigits 2 r2 with
        | none => none
        | some (om, r3) => some (-(oh * 3600 + om * 60), r3)
  | _ => none

/-- `time.Parse(time.RFC3339Nano, capture)` (fraction optional, zone required). -/
def parseRFC3339NanoCap (cs : List Char) : Option Int :=
  match readDate cs with
  | none => none
  | some (y, m, d, r1) =>
    match readChar 'T' r1 with
    | none => none
    | some r2 =>
      match readHMS r2 with
      | none => none
      | some (h, mi, s, r3) =>
        match readOptFrac r3 with
        | none => none
        | some (nanos, r4) =>
          match readZone r4 with
          | none => none
          | some (off, r5) =>
            if r5 = [] && validDateTime y m d h mi s then
              some (epochNs y m d h mi s nanos off)
            else none

/-- `time.Parse(time.RFC3339, capture)` (no fraction, zone required). -/
def parseRFC3339Cap (cs : List Char) : Option Int :=
  match readDate cs with
  | none => none
  | some (y, m, d, r1) =>
    match readChar 'T' r1 with
    | none => none
    | some r2 =>
      match readHMS r2 with
      | none => none
      | some (h, mi, s, r3) =>
        match readZone r3 with
        | none => none
        | some (off, r4) =>
          if r4 = [] && validDateTime y m d h mi s then
            some (epochNs y m d h mi s 0 off)
          else none

/-- Go short month names, lower-cased (lookup is ASCII case-insensitive). -/
def monthOfName (a b c : Char) : Option Int :=
  let n := [a.toLower, b.toLower, c.toLower]
  if n = ['j','a','n'] then some 1
  else if n = ['f','e','b'] then some 2
  else if n = ['m','a','r'] then some 3
  else if n = ['a','p','r'] then some 4
  else if n = ['m','a','y'] then some 5
  else if n = ['j','u','n'] then some 6
  else if n = ['j','u','l'] then some 7
  else if n = ['a','u','g'] then some 8
  else if n = ['s','e','p'] then some 9
  else if n = ['o','c','t'] then some 10
  else if n = ['n','o','v'] then some 11
  else if n = ['d','e','c'] then some 12
  else none

/-- Day of month of 1 or 2 digits (layout `2`). -/
def readDay12 (cs : List Char) : Option (Int × List Char) :=
  match cs with
  | [] => none
  | c :: r =>
    if c.isDigit then
      match r with
      | c2 :: r2 =>
        if c2.isDigit then some (digitsVal [c, c2], r2)
        else some (digitsVal [c], r)
      | [] => some (digitsVal [c], r)
    else none

/-- `time.Parse("Jan 2 15:04:05", capture)`; the year stays 0. -/
def parseSyslogCap (cs : List Char) : Option Int :=
  match cs with
  | a :: b :: c :: r =>
    match monthOfName a b c with
    | none => none
    | some m =>
      match readSpaceRun r with
      | none => none
      | some r1 =>
        match readDay12 r1 with
        | none => none
        | some (d, r2) =>
          match readSpaceRun r2 with
          | none => none
          | some r3 =>
            match readHMS r3 with
            | none => none
            | some (h, mi, s, r4) =>
              if r4 = [] && validDateTime 0 m d h mi s then
                some (epochNs 0 m d h mi s 0 0)
              else none
  | _ => none

/-- `time.Parse("2006-01-02 15:04:05", capture)` (UTC). -/
def parseISOCap (cs : List Char) : Option Int :=
  match readDate cs with
  | none => none
  | some (y, m, d, r1) =>
    match readSpaceRun r1 with
    | none => none
    | some r2 =>
      match readHMS r2 with
      | none => none
      | some (h, mi, s, r3) =>
        if r3 = [] && validDateTime y m d h mi s then
          some (epochNs y m d h mi s 0 0)
        else none

/-- `time.Parse("2006-01-02 15:04:05.000", capture)` (UTC). -/
def parseISOMsCap (cs : List Char) : Option Int :=
  match readDate cs with
  | none => none
  | some (y, m, d, r1) =>
    match readSpaceRun r1 with
    | none => none
    | some r2 =>
      match readHMS r2 with
      | none => none
      | some (h, mi, s, r3) =>
        match readChar '.' r3 with
        | none => none
        | some r4 =>
          match readDigits 3 r4 with
          | none => none
          | some (ms, r5) =>
            if r5 = [] && validDateTime y m d h mi s then
              some (epochNs y m d h mi s (ms * 1000000) 0)
            else none

/-- `strconv.ParseInt` + `time.Unix(v, 0)` on a 10-digit capture. -/
def parseUnixCap (cs : List Char) : Option Int :=
  if cs.length = 10 && cs.all Char.isDigit then
    some (digitsVal cs * nsPerSecond)
  else none

/-- `strconv.ParseInt` + `time.Unix(v/1000, (v%1000)*1e6)` on 13 digits. -/
def parseUnixMsCap (cs : List Char) : Option Int :=
  if cs.length = 13 && cs.all Char.isDigit then
    some ((digitsVal cs / 1000) * nsPerSecond + (digitsVal cs % 1000) * 1000000)
  else none

/-- One entry of the `patterns` table of `parseLogTimestamp`: regex match,
    then parse of the first capture; the second capture is the content. -/
def tryFormat (scan : List Char → Option (List Char))
    (parseCap : List Char → Option Int) (cs : List Char) :
    Option (Int × List Char) :=
  match matchTsPattern scan cs with
  | none => none
  | some (ts, content) =>
    match parseCap ts with
    | none => none
    | some t => some (t, content)

/-- The `patterns` array of `parseLogTimestamp`, in source order. -/
def codePatterns : List (List Char → Option (Int × List Char)) :=
  [tryFormat scanRFC3339NanoTs parseRFC3339NanoCap,
   tryFormat scanRFC3339Ts parseRFC3339Cap,
   tryFormat scanSyslogTs parseSyslogCap,
   tryFormat scanISOTs parseISOCap,
   tryFormat scanISOMsTs parseISOMsCap,
   tryFormat scanUnixTs parseUnixCap,
   tryFormat scanUnixMsTs parseUnixMsCap]

/-- `parseLogTimestamp`: first pattern whose capture parses wins; on no
    match the wall clock `now` and the whole line are returned. -/
def parseLogTimestamp (now : Int) (line : List Char) : Int × List Char :=
  match codePatterns.findSome? (fun f => f line) with
  | some r => r
  | none => (now, line)

/-! ### Log data model -/

/-- `LogSource` (configuration fields that influence collection; the Go
    field `Type` is rendered `Type_`).  `Interval`, `MaxSize` and the
    docker/deploy/tail sub-configuration that only select which external
    process runs are irrelevant to the embedded tick functions and omitted. -/
structure LogSource where
  Name : String
  Type_ : String
  Enabled : Bool
  MaxLines : Nat
  FilePath : String
  FollowFile : Bool
  UseTail : Bool
  Containers : List String
  AllContainers : Bool
  DeployLogFile : String
  Command : String
  IncludePatterns : List (List Char)
  ExcludePatterns : List (List Char)
  Deduplicate : Bool
deriving DecidableEq

/-- The Go zero value `LogSource{}` produced by `var source LogSource`. -/
def zeroLogSource : LogSource :=
  { Name := "", Type_ := "", Enabled := false, MaxLines := 0, FilePath := "",
    FollowFile := false, UseTail := false, Containers := [],
    AllContainers := false, DeployLogFile := "", Command := "",
    IncludePatterns := [], ExcludePatterns := [], Deduplicate := false }

/-- `LogEntry` (`Timestamp` as nanoseconds since the epoch). -/
structure LogEntry where
  Source : String
  Type_ : String
  Container : String
  Content : List Char
  Timestamp : Int
  Level : String
  Hash : String
deriving DecidableEq

/-- `detectLogLevel`: case-insensitive substring scan, first hit wins. -/
def detectLogLevel (line : List Char) : String :=
  let l := line.map Char.toLower
  if containsSeq "error".toList l || containsSeq "err".toList l then "error"
  else if containsSeq "warn".toList l then "warning"
  else if containsSeq "info".toList l then "info"
  else if containsSeq "debug".toList l then "debug"
  else ""

/-- `shouldIncludeLogLine`, with the regex engine abstracted as `re`. -/
def shouldIncludeLogLine (re : List Char → List Char → Bool)
    (line : List Char) (source : LogSource) : Bool :=
  if source.ExcludePatterns.any (fun p => re p line) then false
  else if source.IncludePatterns ≠ [] then
    source.IncludePatterns.any (fun p => re p line)
  else true

/-! ### File collector, direct strategy -/

/-- The `reader.ReadString('\n')` loop of `collectFileLogFromPosition`:
    the newline-terminated chunks of `cs` (each inclusive of its `'\n'`);
    the loop breaks on `io.EOF`, discarding a final unterminated fragment. -/
def readTerminatedLines : List Char → List (List Char)
  | [] => []
  | c :: cs =>
    if c = '\n' then ['\n'] :: readTerminatedLines cs
    else
      match readTerminatedLines cs with
      | [] => []
      | l :: ls => (c :: l) :: ls

/-- The per-line body of the read loop: trim, skip empty, filter, parse. -/
def fileLineEntry (re : List Char → List Char → Bool) (now : Int)
    (source : LogSource) (raw : List Char) : Option LogEntry :=
  if trimChars raw = [] then none
  else if shouldIncludeLogLine re (trimChars raw) source then
    some { Source := source.Name, Type_ := source.Type_, Container := "",
           Content := (parseLogTimestamp now (trimChars raw)).2,
           Timestamp := (parseLogTimestamp now (trimChars raw)).1,
           Level := detectLogLevel (parseLogTimestamp now (trimChars raw)).2,
           Hash := "" }
  else none

/-- `collectFileLogFromPosition` on a snapshot `content` of the file:
    truncation check, early return on no new content, then the read loop;
    returns the collected entries and the updated `lastPosition`. -/
def collectFileLogFromPosition (re : List Char → List Char → Bool) (now : Int)
    (source : LogSource) (content : List Char) (lastPosition : Nat) :
    List LogEntry × Nat :=
  if content.length ≤ (if content.length < lastPosition then 0 else lastPosition)
  then ([], if content.length < lastPosition then 0 else lastPosition)
  else ((readTerminatedLines
           (content.drop (if content.length < lastPosition then 0 else lastPosition))).filterMap
          (fileLineEntry re now source),
        content.length)

/-! ### Container (docker) collector -/

/-- Outcomes of the subprocess invocations of one docker tick:
    `docker ps --format ...` (names) and `docker logs ... <container>`. -/
structure DockerEnv where
  ps : Except String (List Char)
  logsOf : String → Except String (List Char)

/-- Per-line body of `collectDockerLogSince`: trim, skip empty, parse the
    leading timestamp, keep only lines strictly newer than `since` whose
    post-strip content passes the filters. -/
def dockerLineEntry (re : List Char → List Char → Bool) (now : Int)
    (source : LogSource) (since : Int) (container : String) (raw : List Char) :
    Option LogEntry :=
  if trimChars raw = [] then none
  else if since < (parseLogTimestamp now (trimChars raw)).1 then
    if shouldIncludeLogLine re (parseLogTimestamp now (trimChars raw)).2 source then
      some { Source := source.Name, Type_ := source.Type_,
             Container := container,
             Content := (parseLogTimestamp now (trimChars raw)).2,
             Timestamp := (parseLogTimestamp now (trimChars raw)).1,
             Level := detectLogLevel (parseLogTimestamp now (trimChars raw)).2,
             Hash := "" }
    else none
  else none

/-- Entries of one container within a tick (`docker logs` error ⇒ skip). -/
def dockerContainerEntries (re : List Char → List Char → Bool) (now : Int)
    (env : DockerEnv) (source : LogSource) (since : Int) (container : String) :
    List LogEntry :=
  if container = "" then []
  else
    match env.logsOf container with
    | .error _ => []
    | .ok out => (splitNL out).filterMap (dockerLineEntry re now source since container)

/-- `collectDockerLogSince`: container enumeration (explicit list, or
    `docker ps` when `all_containers`), then per-container collection. -/
def collectDockerLogSince (re : List Char → List Char → Bool) (now : Int)
    (env : DockerEnv) (source : LogSource) (since : Int) : List LogEntry :=
  if source.AllContainers then
    match env.ps with
    | .error _ => []
    | .ok out =>
      ((splitNL (trimChars out)).map String.mk).flatMap
        (dockerContainerEntries re now env source since)
  else source.Containers.flatMap (dockerContainerEntries re now env source since)

/-- One tick of `runDockerLogCollection`: collect since the high-water mark,
    and when anything was collected raise the mark to the newest timestamp. -/
def runDockerLogTick (re : List Char → List Char → Bool) (now : Int)
    (env : DockerEnv) (source : LogSource) (lastTimestamp : Int) :
    List LogEntry × Int :=
  if (collectDockerLogSince re now env source lastTimestamp).isEmpty then
    (collectDockerLogSince re now env source lastTimestamp, lastTimestamp)
  else (collectDockerLogSince re now env source lastTimestamp,
        (collectDockerLogSince re now env source lastTimestamp).foldl
          (fun t e => if t < e.Timestamp then e.Timestamp else t)
          lastTimestamp)

/-! ### Deduplication and the log manager -/

/-- The SHA-256 hex digest, modelled as the identity injection of the
    preimage (a collision-free model of the digest). -/
def sha256hex (s : String) : String := s

/-- `generateLogHash`: digest of `source|type|container|content`
    (timestamp deliberately excluded). -/
def generateLogHash (entry : LogEntry) : String :=
  sha256hex (entry.Source ++ "|" ++ entry.Type_ ++ "|" ++ entry.Container ++
             "|" ++ String.mk entry.Content)

/-- The `seenLogs` map (hash → last-seen timestamp) as an association list. -/
def SeenTable := List (String × Int)

/-- Map lookup. -/
def lookupSeen (tbl : SeenTable) (h : String) : Option Int :=
  match tbl with
  | [] => none
  | (k, v) :: t => if k = h then some v else lookupSeen t h

/-- Map insert/replace. -/
def setSeen (tbl : SeenTable) (h : String) (v : Int) : SeenTable :=
  match tbl with
  | [] => [(h, v)]
  | (k, v') :: t => if k = h then (h, v) :: t else (k, v') :: setSeen t h v

/-- `isDuplicateLog`, returning the decision and the updated table
    (the Go method mutates `lm.seenLogs` in place). -/
def isDuplicateLog (tbl : SeenTable) (entry : LogEntry) (source : LogSource) :
    Bool × SeenTable :=
  if !source.Deduplicate then (false, tbl)
  else
    let h := generateLogHash entry
    match lookupSeen tbl h with
    | none => (false, setSeen tbl h entry.Timestamp)
    | some lastSeen =>
      if entry.Timestamp - lastSeen < hourNs then (true, tbl)
      else (false, setSeen tbl h entry.Timestamp)

/-- The first configured source whose `Name` matches, else the zero value
    (the lookup loop of `addLogEntries`). -/
def lookupSource (sources : List LogSource) (name : String) : LogSource :=
  match sources with
  | [] => zeroLogSource
  | s :: t => if s.Name = name then s else lookupSource t name

/-- An entry with its dedup hash attached (`entry.Hash = lm.generateLogHash(entry)`). -/
def hashedEntry (e : LogEntry) : LogEntry := { e with Hash := generateLogHash e }

/-- The dedup-filter loop of `addLogEntries`: hash each entry, look up its
    source, drop duplicates; returns the survivors and the final table. -/
def dedupFilter (sources : List LogSource) (tbl : SeenTable) :
    List LogEntry → List LogEntry × SeenTable
  | [] => ([], tbl)
  | e :: rest =>
    let e' := hashedEntry e
    let source := lookupSource sources e.Source
    let dup := isDuplicateLog tbl e' source
    let r := dedupFilter sources dup.2 rest
    (if dup.1 then r.1 else e' :: r.1, r.2)

/-- The mutable state of `LogManager` touched by `addLogEntries`. -/
structure LogManagerState where
  logs : List LogEntry
  seenLogs : SeenTable

/-- The `logs` field of a fresh `NewLogManager`. -/
def newLogManagerLogs : List LogEntry := []

/-- `addLogEntries`: dedup-filter the batch, append the survivors to the
    ring, keep only the last 1000 entries.  (The asynchronous upstream POST
    of the survivors does not touch this state and is not modelled.) -/
def addLogEntries (sources : List LogSource) (st : LogManagerState)
    (entries : List LogEntry) : LogManagerState :=
  if entries = [] then st
  else
    let fr := dedupFilter sources st.seenLogs entries
    if fr.1 = [] then { st with seenLogs := fr.2 }
    else
      let logs' := st.logs ++ fr.1
      { logs := if logs'.length > 1000 then logs'.drop (logs'.length - 1000)
                else logs',
        seenLogs := fr.2 }

/-! ### Check executors -/

/-- `CheckConfig` (the Go field `Type` is rendered `Type_`; `Interval`
    only drives the scheduler and is omitted). -/
structure CheckConfig where
  Name : String
  Type_ : String
  URL : String
  Host : String
  Port : Int
  Cmd : String
  ExpectStatus : Int

/-- `CheckResult` (the timing fields `Duration`, `Timestamp` and
    `ResponseTime` measure real time and are not modelled; field defaults
    are the Go zero values). -/
structure CheckResult where
  Name : String := ""
  Type_ : String := ""
  Status : String := ""
  Error : String := ""
  HTTPStatusCode : Int := 0
  CommandOutput : String := ""
  CommandError : String := ""

/-- Observable outcomes of the external effects of one check evaluation. -/
structure CheckEnv where
  newRequestErr : Option String
  httpDo : Except String Int
  dial : String → Int → Option String
  cmdErr : Option String
  cmdStdout : String
  cmdStderr : String

/-- `strings.TrimSpace` on a `String`. -/
def trimString (s : String) : String := String.mk (trimChars s.toList)

/-- `executeHTTPCheck` (the GET round-trip abstracted into `env`). -/
def executeHTTPCheck (env : CheckEnv) (check : CheckConfig) : CheckResult :=
  let result : CheckResult := { Name := check.Name, Type_ := "http" }
  match env.newRequestErr with
  | some msg =>
    { result with Status := "error", Error := "failed to create request: " ++ msg }
  | none =>
    match env.httpDo with
    | .error msg =>
      { result with Status := "down", Error := "request failed: " ++ msg }
    | .ok code =>
      let result := { result with HTTPStatusCode := code }
      if check.ExpectStatus > 0 ∧ code ≠ check.ExpectStatus then
        { result with Status := "down",
                      Error := "expected status " ++ toString check.ExpectStatus ++
                               ", got " ++ toString code }
      else if 200 ≤ code ∧ code < 300 then { result with Status := "up" }
      else
        { result with Status := "down", Error := "HTTP status " ++ toString code }

/-- The dialled address: `fmt.Sprintf("%s:%d", check.Host, check.Port)`. -/
def portCheckAddress (check : CheckConfig) : String :=
  check.Host ++ ":" ++ toString check.Port

/-- The `net.DialTimeout` timeout argument: 10 seconds. -/
def dialTimeoutNs : Int := 10 * nsPerSecond

/-- `executePortCheck` (the dial abstracted into `env.dial`). -/
def executePortCheck (env : CheckEnv) (check : CheckConfig) : CheckResult :=
  let result : CheckResult := { Name := check.Name, Type_ := "port" }
  match env.dial (portCheckAddress check) dialTimeoutNs with
  | some msg =>
    { result with Status := "down", Error := "connection failed: " ++ msg }
  | none => { result with Status := "up" }

/-- `executeCommandCheck` (the `sh -c` run abstracted into `env`). -/
def executeCommandCheck (env : CheckEnv) (check : CheckConfig) : CheckResult :=
  let result : CheckResult :=
    { Name := check.Name, Type_ := "command",
      CommandOutput := trimString env.cmdStdout,
      CommandError := trimString env.cmdStderr }
  match env.cmdErr with
  | some msg =>
    { result with Status := "down", Error := "command failed: " ++ msg }
  | none => { result with Status := "up" }

/-- `executeCheck`: dispatch on the check type, unknown types are
    configuration errors.  (The subsequent `Duration`/`Timestamp` stamping,
    result-store insert and asynchronous report are not modelled.) -/
def executeCheck (env : CheckEnv) (check : CheckConfig) : CheckResult :=
  if check.Type_ = "http" then executeHTTPCheck env check
  else if check.Type_ = "port" then executePortCheck env check
  else if check.Type_ = "command" then executeCommandCheck env check
  else
    { Name := check.Name, Type_ := check.Type_, Status := "error",
      Error := "unknown check type: " ++ check.Type_ }

/-! ### Spec-side definitions

These follow the specification text (not the source) and are compared with
the embedded code in refinement theorems. -/

/-- Spec format "ISO 8601 space-separated with optional `.mmm`": one format
    with a greedy optional millisecond group. -/
def isoOptionalMs (cs : List Char) : Option (Int × List Char) :=
  match tryFormat scanISOMsTs parseISOMsCap cs with
  | some r => some r
  | none => tryFormat scanISOTs parseISOCap cs

/-- The six timestamp formats of the specification, in the specified order. -/
def specFormats : List (List Char → Option (Int × List Char)) :=
  [tryFormat scanRFC3339NanoTs parseRFC3339NanoCap,
   tryFormat scanRFC3339Ts parseRFC3339Cap,
   tryFormat scanSyslogTs parseSyslogCap,
   isoOptionalMs,
   tryFormat scanUnixTs parseUnixCap,
   tryFormat scanUnixMsTs parseUnixMsCap]

/-- Spec-side description of one direct-strategy file tick on a slice:
    one entry per newline-separated line (final unterminated fragment
    excluded) that is non-empty after trimming and passes the filters. -/
def fileTickSpecEntries (re : List Char → List Char → Bool) (now : Int)
    (source : LogSource) (slice : List Char) : List LogEntry :=
  (((splitNL slice).dropLast.map trimChars).filter
      (fun l => !l.isEmpty && shouldIncludeLogLine re l source)).map
    (fun l =>
      { Source := source.Name, Type_ := source.Type_, Container := "",
        Content := (parseLogTimestamp now l).2,
        Timestamp := (parseLogTimestamp now l).1,
        Level := detectLogLevel (parseLogTimestamp now l).2,
        Hash := "" })

/-! ### Concrete instances used by witnesses and counterexamples -/

/-- An HTTP check expecting status 500 whose server answers 500. -/
def expect500Check : CheckConfig :=
  { Name := "svc", Type_ := "http", URL := "http://h/x", Host := "", Port := 0,
    Cmd := "", ExpectStatus := 500 }

/-- Environment where the GET succeeds at the transport level with code 500. -/
def got500Env : CheckEnv :=
  { newRequestErr := none, httpDo := .ok 500, dial := fun _ _ => none,
    cmdErr := none, cmdStdout := "", cmdStderr := "" }

/-- A 204-answering environment for the C2 witness. -/
def got204Env : CheckEnv :=
  { newRequestErr := none, httpDo := .ok 204, dial := fun _ _ => none,
    cmdErr := none, cmdStdout := "", cmdStderr := "" }

/-- A plain HTTP check with `expect_status = 0`. -/
def plainHTTPCheck : CheckConfig :=
  { Name := "svc", Type_ := "http", URL := "http://h/x", Host := "", Port := 0,
    Cmd := "", ExpectStatus := 0 }

/-- A port check whose configured host is a bare IPv6 literal. -/
def ipv6PortCheck : CheckConfig :=
  { Name := "p", Type_ := "port", URL := "", Host := "::1", Port := 80,
    Cmd := "", ExpectStatus := 0 }

/-- An environment whose TCP dial always succeeds. -/
def dialOkEnv : CheckEnv :=
  { newRequestErr := none, httpDo := .ok 200, dial := fun _ _ => none,
    cmdErr := none, cmdStdout := "", cmdStderr := "" }

/-- A broken environment: the command exits non-zero. -/
def cmdFailEnv : CheckEnv :=
  { newRequestErr := none, httpDo := .ok 200, dial := fun _ _ => none,
    cmdErr := some "exit status 2", cmdStdout := "partial", cmdStderr := "boom" }

/-- A command check. -/
def cmdCheck : CheckConfig :=
  { Name := "job", Type_ := "command", URL := "", Host := "", Port := 0,
    Cmd := "false", ExpectStatus := 0 }

/-- A toy match oracle: a pattern matches exactly itself. -/
def reExact : List Char → List Char → Bool := fun p l => p == l

/-- A source whose include and exclude patterns both match the line `x`. -/
def bothPatternsSource : LogSource :=
  { zeroLogSource with IncludePatterns := ["x".toList],
                       ExcludePatterns := ["x".toList] }

/-- A source with deduplication, used by the dedup witnesses. -/
def dedupSource : LogSource := { zeroLogSource with Name := "s", Deduplicate := true }

/-- An entry of the dedup source at timestamp 0. -/
def entryAt0 : LogEntry :=
  { Source := "s", Type_ := "", Container := "", Content := "boom".toList,
    Timestamp := 0, Level := "", Hash := "" }

/-- A second entry of the dedup source half an hour later. -/
def entryAt30min : LogEntry :=
  { Source := "s", Type_ := "", Container := "", Content := "boom".toList,
    Timestamp := 1800 * nsPerSecond, Level := "", Hash := "" }

/-- An entry whose source name `nobody` is not configured. -/
def strayEntry : LogEntry :=
  { Source := "nobody", Type_ := "file", Container := "",
    Content := "boom".toList, Timestamp := 0, Level := "", Hash := "" }

/-- A concrete docker tick: one container `web` with one Unix-stamped line. -/
def oneLineDockerEnv : DockerEnv :=
  { ps := .error "unused",
    logsOf := fun c => if c = "web" then .ok "1700000000 hi".toList
                       else .error "no such container" }

/-- The docker source watching container `web`. -/
def webDockerSource : LogSource :=
  { zeroLogSource with Name := "dock", Type_ := "docker", Containers := ["web"] }

/-! ### Theorems: check executors (C2, C8, C9) -/

/-- C2 counterexample: with `expect_status = 500` and response code 500 the
    matching non-2xx code yields `status=down` with error "HTTP status 500",
    not `status=up` as the claim asserts. -/
theorem executeHTTPCheck_matching_non2xx_is_down :
    (executeHTTPCheck got500Env expect500Check).Status = "down" ∧
    (executeHTTPCheck got500Env expect500Check).Status ≠ "up" ∧
    (executeHTTPCheck got500Env expect500Check).Error = "HTTP status 500" ∧
    expect500Check.ExpectStatus > 0 ∧
    (executeHTTPCheck got500Env expect500Check).HTTPStatusCode =
      expect500Check.ExpectStatus := by
  decide

/-- C2 (amended): for a transport-successful GET with response code `code`:
    `expect_status > 0` and a differing code give `status=down` with the
    mismatch error; otherwise a 2xx code gives `status=up`; otherwise
    `status=down` with error "HTTP status code".  In particular
    `expect_status = 0` accepts every 2xx as up, and with
    `expect_status > 0` a matching non-2xx code gives `status=down`. -/
theorem executeHTTPCheck_status_spec (env : CheckEnv) (check : CheckConfig)
    (code : Int) (hreq : env.newRequestErr = none)
    (hdo : env.httpDo = .ok code) :
    (check.ExpectStatus > 0 → code ≠ check.ExpectStatus →
       (executeHTTPCheck env check).Status = "down" ∧
       (executeHTTPCheck env check).Error =
         "expected status " ++ toString check.ExpectStatus ++ ", got " ++
           toString code) ∧
    (¬(check.ExpectStatus > 0 ∧ code ≠ check.ExpectStatus) →
       200 ≤ code → code < 300 →
       (executeHTTPCheck env check).Status = "up" ∧
       (executeHTTPCheck env check).Error = "") ∧
    (¬(check.ExpectStatus > 0 ∧ code ≠ check.ExpectStatus) →
       ¬(200 ≤ code ∧ code < 300) →
       (executeHTTPCheck env check).Status = "down" ∧
       (executeHTTPCheck env check).Error = "HTTP status " ++ toString code) ∧
    (check.ExpectStatus = 0 → 200 ≤ code → code < 300 →
       (executeHTTPCheck env check).Status = "up") ∧
    (check.ExpectStatus > 0 → code = check.ExpectStatus →
       ¬(200 ≤ code ∧ code < 300) →
       (executeHTTPCheck env check).Status = "down" ∧
       (executeHTTPCheck env check).Error = "HTTP status " ++ toString code) ∧
    (executeHTTPCheck env check).HTTPStatusCode = code := by
  simp only [executeHTTPCheck, hreq, hdo]
  refine ⟨?_, ?_, ?_, ?_, ?_, ?_⟩
  · intro h1 h2
    rw [if_pos ⟨h1, h2⟩]
    exact ⟨rfl, rfl⟩
  · intro h1 h2 h3
    rw [if_neg h1, if_pos ⟨h2, h3⟩]
    exact ⟨rfl, rfl⟩
  · intro h1 h2
    rw [if_neg h1, if_neg h2]
    exact ⟨rfl, rfl⟩
  · intro h1 h2 h3
    rw [if_neg (by omega), if_pos ⟨h2, h3⟩]
  · intro h1 h2 h3
    rw [if_neg (by omega), if_neg h3]
    exact ⟨rfl, rfl⟩
  · split
    · rfl
    · split <;> rfl

/-- C2 witness: `expect_status = 0` with a 204 answer yields `up`. -/
theorem executeHTTPCheck_status_spec_witness :
    (executeHTTPCheck got204Env plainHTTPCheck).Status = "up" ∧
    (executeHTTPCheck got204Env plainHTTPCheck).Error = "" :=
  (executeHTTPCheck_status_spec got204Env plainHTTPCheck 204 rfl rfl).2.1
    (by decide) (by decide) (by decide)

/-- C8 counterexample: for the IPv6 literal host `::1` the dialled address
    is the plain concatenation `::1:80`, not the bracketed `[::1]:80`
    the claim asserts. -/
theorem portCheckAddress_ipv6_unbracketed :
    portCheckAddress ipv6PortCheck = "::1:80" ∧
    portCheckAddress ipv6PortCheck ≠ "[::1]:80" := by
  decide

/-- C8 (amended): the TCP check dials the address obtained by plain
    `host:port` formatting (no bracket wrapping of IPv6 literals) with a
    10-second timeout; success yields `up`, failure yields `down` with the
    transport message. -/
theorem executePortCheck_spec (env : CheckEnv) (check : CheckConfig) :
    (portCheckAddress check = check.Host ++ ":" ++ toString check.Port) ∧
    dialTimeoutNs = 10 * nsPerSecond ∧
    (env.dial (portCheckAddress check) dialTimeoutNs = none →
       (executePortCheck env check).Status = "up" ∧
       (executePortCheck env check).Error = "") ∧
    (∀ msg, env.dial (portCheckAddress check) dialTimeoutNs = some msg →
       (executePortCheck env check).Status = "down" ∧
       (executePortCheck env check).Error = "connection failed: " ++ msg) := by
  refine ⟨rfl, rfl, ?_, ?_⟩
  · intro h
    simp [executePortCheck, h]
  · intro msg h
    simp [executePortCheck, h]

/-- C8 witness: a successful dial yields `up` with empty error. -/
theorem executePortCheck_spec_witness :
    (executePortCheck dialOkEnv ipv6PortCheck).Status = "up" ∧
    (executePortCheck dialOkEnv ipv6PortCheck).Error = "" :=
  (executePortCheck_spec dialOkEnv ipv6PortCheck).2.2.1 rfl

/-- Case analysis of `executeHTTPCheck` statuses. -/
lemma executeHTTPCheck_cases (env : CheckEnv) (check : CheckConfig) :
    ((executeHTTPCheck env check).Status = "error" ↔ env.newRequestErr ≠ none) ∧
    ((executeHTTPCheck env check).Status = "up" →
       (executeHTTPCheck env check).Error = "") ∧
    ((executeHTTPCheck env check).Status = "up" ∨
       (executeHTTPCheck env check).Status = "down" ∨
       (executeHTTPCheck env check).Status = "error") ∧
    (∀ msg, env.newRequestErr = none → env.httpDo = .error msg →
       (executeHTTPCheck env check).Status = "down") := by
  cases hreq : env.newRequestErr with
  | some msg => simp [executeHTTPCheck, hreq]
  | none =>
    cases hdo : env.httpDo with
    | error msg => simp [executeHTTPCheck, hreq, hdo]
    | ok code =>
      simp only [executeHTTPCheck, hreq, hdo]
      split
      · simp
      · split <;> simp

/-- On a transport-successful GET, a code differing from a positive
    `expect_status`, or a non-2xx code, makes `executeHTTPCheck` report
    `down`. -/
lemma executeHTTPCheck_ok_down (env : CheckEnv) (check : CheckConfig)
    (code : Int) (hreq : env.newRequestErr = none)
    (hdo : env.httpDo = .ok code) :
    (check.ExpectStatus > 0 → code ≠ check.ExpectStatus →
       (executeHTTPCheck env check).Status = "down") ∧
    (¬(200 ≤ code ∧ code < 300) →
       (executeHTTPCheck env check).Status = "down") := by
  simp only [executeHTTPCheck, hreq, hdo]
  constructor
  · intro h1 h2
    rw [if_pos ⟨h1, h2⟩]
  · intro h2
    by_cases h1 : check.ExpectStatus > 0 ∧ code ≠ check.ExpectStatus
    · rw [if_pos h1]
    · rw [if_neg h1, if_neg h2]

/-- Case analysis of `executePortCheck` statuses. -/
lemma executePortCheck_cases (env : CheckEnv) (check : CheckConfig) :
    ((executePortCheck env check).Status ≠ "error") ∧
    ((executePortCheck env check).Status = "up" →
       (executePortCheck env check).Error = "") ∧
    ((executePortCheck env check).Status = "up" ∨
       (executePortCheck env check).Status = "down") ∧
    (∀ msg, env.dial (portCheckAddress check) dialTimeoutNs = some msg →
       (executePortCheck env check).Status = "down") := by
  unfold executePortCheck
  cases hdial : env.dial (portCheckAddress check) dialTimeoutNs <;> simp

/-- Case analysis of `executeCommandCheck` statuses. -/
lemma executeCommandCheck_cases (env : CheckEnv) (check : CheckConfig) :
    ((executeCommandCheck env check).Status ≠ "error") ∧
    ((executeCommandCheck env check).Status = "up" →
       (executeCommandCheck env check).Error = "") ∧
    ((executeCommandCheck env check).Status = "up" ∨
       (executeCommandCheck env check).Status = "down") ∧
    (∀ msg, env.cmdErr = some msg →
       (executeCommandCheck env check).Status = "down") := by
  unfold executeCommandCheck
  cases hrun : env.cmdErr <;> simp

/-- C9: `status=error` is produced exactly for configuration-level problems
    (unknown check type, or an HTTP request that cannot be constructed);
    every external failure is `status=down`; `status=up` has empty error;
    the status is always one of up/down/error. -/
theorem executeCheck_error_taxonomy (env : CheckEnv) (check : CheckConfig) :
    ((executeCheck env check).Status = "error" ↔
       (¬(check.Type_ = "http" ∨ check.Type_ = "port" ∨
            check.Type_ = "command") ∨
        (check.Type_ = "http" ∧ env.newRequestErr ≠ none))) ∧
    ((executeCheck env check).Status = "up" →
       (executeCheck env check).Error = "") ∧
    ((executeCheck env check).Status = "up" ∨
       (executeCheck env check).Status = "down" ∨
       (executeCheck env check).Status = "error") ∧
    (check.Type_ = "http" → env.newRequestErr = none →
       ∀ msg, env.httpDo = .error msg →
         (executeCheck env check).Status = "down") ∧
    (check.Type_ = "port" →
       ∀ msg, env.dial (portCheckAddress check) dialTimeoutNs = some msg →
         (executeCheck env check).Status = "down") ∧
    (check.Type_ = "command" →
       ∀ msg, env.cmdErr = some msg →
         (executeCheck env check).Status = "down") ∧
    (check.Type_ = "http" → env.newRequestErr = none →
       ∀ code, env.httpDo = .ok code → check.ExpectStatus > 0 →
         code ≠ check.ExpectStatus →
         (executeCheck env check).Status = "down") ∧
    (check.Type_ = "http" → env.newRequestErr = none →
       ∀ code, env.httpDo = .ok code → ¬(200 ≤ code ∧ code < 300) →
         (executeCheck env check).Status = "down") := by
  by_cases hh : check.Type_ = "http"
  · have hm := executeHTTPCheck_cases env check
    simp only [executeCheck, if_pos hh]
    refine ⟨?_, hm.2.1, hm.2.2.1, ?_, ?_, ?_, ?_, ?_⟩
    · rw [hm.1]
      constructor
      · intro hne
        exact Or.inr ⟨hh, hne⟩
      · rintro (habs | ⟨-, hne⟩)
        · exact absurd (Or.inl hh) habs
        · exact hne
    · intro _ hreq msg hdo
      exact hm.2.2.2 msg hreq hdo
    · intro hp
      exact absurd (hh.symm.trans hp) (by decide)
    · intro hc
      exact absurd (hh.symm.trans hc) (by decide)
    · intro _ hreq code hdo h1 h2
      exact (executeHTTPCheck_ok_down env check code hreq hdo).1 h1 h2
    · intro _ hreq code hdo h2
      exact (executeHTTPCheck_ok_down env check code hreq hdo).2 h2
  · by_cases hp : check.Type_ = "port"
    · have hm := executePortCheck_cases env check
      simp only [executeCheck, if_neg hh, if_pos hp]
      refine ⟨?_, hm.2.1, ?_, ?_, ?_, ?_, ?_, ?_⟩
      · constructor
        · intro habs
          exact absurd habs hm.1
        · rintro (habs | ⟨hhh, -⟩)
          · exact absurd (Or.inr (Or.inl hp)) habs
          · exact absurd hhh hh
      · rcases hm.2.2.1 with h | h
        · exact Or.inl h
        · exact Or.inr (Or.inl h)
      · intro hhh
        exact absurd hhh hh
      · intro _ msg hdial
        exact hm.2.2.2 msg hdial
      · intro hc
        exact absurd (hp.symm.trans hc) (by decide)
      · intro hhh
        exact absurd hhh hh
      · intro hhh
        exact absurd hhh hh
    · by_cases hc : check.Type_ = "command"
      · have hm := executeCommandCheck_cases env check
        simp only [executeCheck, if_neg hh, if_neg hp, if_pos hc]
        refine ⟨?_, hm.2.1, ?_, ?_, ?_, ?_, ?_, ?_⟩
        · constructor
          · intro habs
            exact absurd habs hm.1
          · rintro (habs | ⟨hhh, -⟩)
            · exact absurd (Or.inr (Or.inr hc)) habs
            · exact absurd hhh hh
        · rcases hm.2.2.1 with h | h
          · exact Or.inl h
          · exact Or.inr (Or.inl h)
        · intro hhh
          exact absurd hhh hh
        · intro hpp
          exact absurd hpp hp
        · intro _ msg hrun
          exact hm.2.2.2 msg hrun
        · intro hhh
          exact absurd hhh hh
        · intro hhh
          exact absurd hhh hh
      · have he : executeCheck env check =
            { Name := check.Name, Type_ := check.Type_, Status := "error",
              Error := "unknown check type: " ++ check.Type_ } := by
          simp [executeCheck, hh, hp, hc]
        rw [he]
        refine ⟨?_, ?_, ?_, ?_, ?_, ?_, ?_, ?_⟩
        · constructor
          · intro _
            exact Or.inl (by simp [hh, hp, hc])
          · intro _
            rfl
        · intro habs
          simp at habs
        · exact Or.inr (Or.inr rfl)
        · intro hhh
          exact absurd hhh hh
        · intro hpp
          exact absurd hpp hp
        · intro hcc
          exact absurd hcc hc
        · intro hhh
          exact absurd hhh hh
        · intro hhh
          exact absurd hhh hh

/-- C9 witness: a failing command yields `down`, not `error`, and a
    transport-successful HTTP response with non-2xx code 500 yields `down`. -/
theorem executeCheck_error_taxonomy_witness :
    (executeCheck cmdFailEnv cmdCheck).Status = "down" ∧
    (executeCheck got500Env expect500Check).Status = "down" :=
  ⟨(executeCheck_error_taxonomy cmdFailEnv cmdCheck).2.2.2.2.2.1 rfl
     "exit status 2" rfl,
   (executeCheck_error_taxonomy got500Env expect500Check).2.2.2.2.2.2.2 rfl rfl
     500 rfl (by decide)⟩

/-! ### Theorems: line filtering (C7) -/

/-- C7: exclude patterns drop the line and take precedence; with non-empty
    include patterns the line is kept iff some include pattern matches;
    with no include patterns the line is kept. -/
theorem shouldIncludeLogLine_spec (re : List Char → List Char → Bool)
    (line : List Char) (source : LogSource) :
    ((∃ p ∈ source.ExcludePatterns, re p line = true) →
       shouldIncludeLogLine re line source = false) ∧
    ((∀ p ∈ source.ExcludePatterns, re p line = false) →
       source.IncludePatterns ≠ [] →
       (shouldIncludeLogLine re line source = true ↔
          ∃ p ∈ source.IncludePatterns, re p line = true)) ∧
    ((∀ p ∈ source.ExcludePatterns, re p line = false) →
       source.IncludePatterns = [] →
       shouldIncludeLogLine re line source = true) := by
  have hexfalse : (∀ p ∈ source.ExcludePatterns, re p line = false) →
      source.ExcludePatterns.any (fun p => re p line) = false := by
    intro hnone
    cases hany : source.ExcludePatterns.any (fun p => re p line)
    · rfl
    · obtain ⟨p, hp, hre⟩ := List.any_eq_true.mp hany
      rw [hnone p hp] at hre
      exact absurd hre (by decide)
  refine ⟨?_, ?_, ?_⟩
  · rintro ⟨p, hp, hre⟩
    have hex : source.ExcludePatterns.any (fun p => re p line) = true :=
      List.any_eq_true.mpr ⟨p, hp, hre⟩
    simp [shouldIncludeLogLine, hex]
  · intro hnone hne
    simp [shouldIncludeLogLine, hexfalse hnone, hne, List.any_eq_true]
  · intro hnone hempty
    simp [shouldIncludeLogLine, hexfalse hnone, hempty]

/-- C7 witness: exclusion wins over a matching include pattern. -/
theorem shouldIncludeLogLine_spec_witness :
    shouldIncludeLogLine reExact "x".toList bothPatternsSource = false :=
  (shouldIncludeLogLine_spec reExact "x".toList bothPatternsSource).1
    ⟨"x".toList, by decide, by decide⟩

/-! ### Theorems: log ring capacity (C6) -/

/-- C6: starting from a ring within its 1000-entry capacity (as every
    reachable state is — `NewLogManager` starts empty), `addLogEntries`
    leaves at most 1000 entries, the kept entries are a suffix of the old
    ring followed by the batch survivors (so only the oldest entries are
    dropped), and nothing is dropped while the capacity is not exceeded. -/
theorem addLogEntries_ringBound (sources : List LogSource)
    (st : LogManagerState) (entries : List LogEntry)
    (h : st.logs.length ≤ 1000) :
    (addLogEntries sources st entries).logs.length ≤ 1000 ∧
    List.IsSuffix (addLogEntries sources st entries).logs
      (st.logs ++ (dedupFilter sources st.seenLogs entries).1) ∧
    (st.logs.length + (dedupFilter sources st.seenLogs entries).1.length ≤ 1000 →
       (addLogEntries sources st entries).logs =
         st.logs ++ (dedupFilter sources st.seenLogs entries).1) := by
  by_cases hent : entries = []
  · subst hent
    simp only [addLogEntries, dedupFilter, if_pos rfl]
    refine ⟨h, ⟨[], by simp⟩, fun _ => by simp⟩
  · simp only [addLogEntries, if_neg hent]
    by_cases hfr : (dedupFilter sources st.seenLogs entries).1 = []
    · simp only [hfr, if_pos rfl]
      refine ⟨h, ⟨[], by simp⟩, fun _ => by simp⟩
    · simp only [if_neg hfr]
      by_cases hlen : (st.logs ++ (dedupFilter sources st.seenLogs entries).1).length > 1000
      · simp only [if_pos hlen]
        refine ⟨?_, ?_, ?_⟩
        · rw [List.length_drop]
          omega
        · exact List.drop_suffix _ _
        · intro hle
          rw [List.length_append] at hlen
          omega
      · simp only [if_neg hlen]
        exact ⟨by omega, List.suffix_refl _, fun _ => by trivial⟩

/-- C6 witness: adding one entry to an empty ring keeps it within capacity
    and appends exactly the batch survivors. -/
theorem addLogEntries_ringBound_witness :
    (addLogEntries [dedupSource] { logs := newLogManagerLogs, seenLogs := [] }
        [entryAt0]).logs.length ≤ 1000 ∧
    (addLogEntries [dedupSource] { logs := newLogManagerLogs, seenLogs := [] }
        [entryAt0]).logs =
      newLogManagerLogs ++ (dedupFilter [dedupSource] [] [entryAt0]).1 := by
  have hth := addLogEntries_ringBound [dedupSource]
    { logs := newLogManagerLogs, seenLogs := [] } [entryAt0] (by decide)
  exact ⟨hth.1, hth.2.2 (by decide)⟩

/-! ### Theorems: unknown-source entries bypass dedup (C10) -/

/-- Looking up a name that no configured source carries yields the zero value. -/
lemma lookupSource_not_found (sources : List LogSource) (name : String)
    (h : ∀ s ∈ sources, s.Name ≠ name) : lookupSource sources name = zeroLogSource := by
  induction sources with
  | nil => rfl
  | cons s t ih =>
    have hs : s.Name ≠ name := h s (List.mem_cons_self s t)
    simp only [lookupSource, if_neg hs]
    exact ih (fun s' hs' => h s' (List.mem_cons_of_mem s hs'))

/-- C10: an entry whose `Source` matches no configured source is deduped
    against the zero-value `LogSource` (whose `Deduplicate` is false), so it
    is always accepted and never touches the dedup table, for every table
    state — in particular its multiplicity is preserved by the filter. -/
theorem addLogEntries_unknown_source_accepted (sources : List LogSource)
    (e : LogEntry) (h : ∀ s ∈ sources, s.Name ≠ e.Source) :
    lookupSource sources e.Source = zeroLogSource ∧
    zeroLogSource.Deduplicate = false ∧
    (∀ tbl : SeenTable,
       isDuplicateLog tbl (hashedEntry e) (lookupSource sources e.Source) =
         (false, tbl)) ∧
    (∀ (tbl : SeenTable) (rest : List LogEntry),
       dedupFilter sources tbl (e :: rest) =
         (hashedEntry e :: (dedupFilter sources tbl rest).1,
          (dedupFilter sources tbl rest).2)) ∧
    (∀ (tbl : SeenTable) (l : List LogEntry),
       l.count e ≤ (dedupFilter sources tbl l).1.count (hashedEntry e)) := by
  have hzero := lookupSource_not_found sources e.Source h
  have hdup : ∀ tbl : SeenTable,
      isDuplicateLog tbl (hashedEntry e) (lookupSource sources e.Source) =
        (false, tbl) := by
    intro tbl
    rw [hzero]
    rfl
  have hhead : ∀ (tbl : SeenTable) (rest : List LogEntry),
      dedupFilter sources tbl (e :: rest) =
        (hashedEntry e :: (dedupFilter sources tbl rest).1,
         (dedupFilter sources tbl rest).2) := by
    intro tbl rest
    simp [dedupFilter, hdup tbl]
  refine ⟨hzero, rfl, hdup, hhead, ?_⟩
  intro tbl l
  induction l generalizing tbl with
  | nil => simp [dedupFilter]
  | cons x t ih =>
    by_cases hx : x = e
    · subst hx
      rw [hhead tbl t]
      rw [List.count_cons_self, List.count_cons_self]
      exact Nat.add_le_add_right (ih tbl) 1
    · have hcnt : (x :: t).count e = t.count e := by
        rw [List.count_cons]
        simp [hx]
      rw [hcnt]
      simp only [dedupFilter]
      cases hdup' : (isDuplicateLog tbl (hashedEntry x)
          (lookupSource sources x.Source)).1 with
      | true =>
        rw [if_pos rfl]
        exact ih _
      | false =>
        rw [if_neg (by simp)]
        refine le_trans
          (ih (isDuplicateLog tbl (hashedEntry x) (lookupSource sources x.Source)).2) ?_
        rw [List.count_cons]
        omega

/-- C10 witness: even with a dedup-enabled configuration and a table that
    has already seen the stray entry hash at the same timestamp, the stray
    entry survives the filter and the table is untouched. -/
theorem addLogEntries_unknown_source_accepted_witness :
    dedupFilter [dedupSource] [(generateLogHash strayEntry, 0)] [strayEntry] =
      (hashedEntry strayEntry ::
        (dedupFilter [dedupSource] [(generateLogHash strayEntry, 0)] []).1,
       (dedupFilter [dedupSource] [(generateLogHash strayEntry, 0)] []).2) :=
  (addLogEntries_unknown_source_accepted [dedupSource] strayEntry
      (by decide)).2.2.2.1 [(generateLogHash strayEntry, 0)] []

/-! ### Theorems: deduplication window (C3) -/

@[simp] lemma hashedEntry_Source (e : LogEntry) : (hashedEntry e).Source = e.Source := rfl

@[simp] lemma hashedEntry_Type (e : LogEntry) : (hashedEntry e).Type_ = e.Type_ := rfl

@[simp] lemma hashedEntry_Container (e : LogEntry) :
    (hashedEntry e).Container = e.Container := rfl

@[simp] lemma hashedEntry_Content (e : LogEntry) :
    (hashedEntry e).Content = e.Content := rfl

@[simp] lemma hashedEntry_Timestamp (e : LogEntry) :
    (hashedEntry e).Timestamp = e.Timestamp := rfl

@[simp] lemma generateLogHash_hashedEntry (e : LogEntry) :
    generateLogHash (hashedEntry e) = generateLogHash e := rfl

lemma lookupSeen_setSeen_self (tbl : SeenTable) (h : String) (v : Int) :
    lookupSeen (setSeen tbl h v) h = some v := by
  induction tbl with
  | nil => simp [setSeen, lookupSeen]
  | cons kv t ih =>
    by_cases hk : kv.1 = h
    · simp [setSeen, lookupSeen, hk]
    · simp [setSeen, lookupSeen, hk, ih]

lemma lookupSeen_setSeen_ne (tbl : SeenTable) (k h : String) (v : Int)
    (hne : k ≠ h) : lookupSeen (setSeen tbl k v) h = lookupSeen tbl h := by
  induction tbl with
  | nil => simp [setSeen, lookupSeen, hne]
  | cons kv t ih =>
    by_cases hk : kv.1 = k
    · simp [setSeen, lookupSeen, hk, hne]
    · simp only [setSeen, lookupSeen, if_neg hk]
      by_cases hkh : kv.1 = h
      · simp [lookupSeen, hkh]
      · simp [lookupSeen, hkh, ih]

lemma isDuplicateLog_nodedup (tbl : SeenTable) (e : LogEntry) (s : LogSource)
    (hd : s.Deduplicate = false) : isDuplicateLog tbl e s = (false, tbl) := by
  simp [isDuplicateLog, hd]

lemma isDuplicateLog_new (tbl : SeenTable) (e : LogEntry) (s : LogSource)
    (hd : s.Deduplicate = true)
    (hlk : lookupSeen tbl (generateLogHash e) = none) :
    isDuplicateLog tbl e s = (false, setSeen tbl (generateLogHash e) e.Timestamp) := by
  simp [isDuplicateLog, hd, hlk]

lemma isDuplicateLog_recent (tbl : SeenTable) (e : LogEntry) (s : LogSource)
    (lastSeen : Int) (hd : s.Deduplicate = true)
    (hlk : lookupSeen tbl (generateLogHash e) = some lastSeen)
    (hwin : e.Timestamp - lastSeen < hourNs) :
    isDuplicateLog tbl e s = (true, tbl) := by
  simp [isDuplicateLog, hd, hlk, hwin]

lemma isDuplicateLog_stale (tbl : SeenTable) (e : LogEntry) (s : LogSource)
    (lastSeen : Int) (hd : s.Deduplicate = true)
    (hlk : lookupSeen tbl (generateLogHash e) = some lastSeen)
    (hwin : hourNs ≤ e.Timestamp - lastSeen) :
    isDuplicateLog tbl e s = (false, setSeen tbl (generateLogHash e) e.Timestamp) := by
  have hnw : ¬ (e.Timestamp - lastSeen < hourNs) := by omega
  simp [isDuplicateLog, hd, hlk, hnw]

/-- One step of the dedup filter on an accepted entry. -/
lemma dedupFilter_cons_accept (sources : List LogSource) (tbl tbl' : SeenTable)
    (e : LogEntry) (rest : List LogEntry)
    (h : isDuplicateLog tbl (hashedEntry e) (lookupSource sources e.Source) =
         (false, tbl')) :
    dedupFilter sources tbl (e :: rest) =
      (hashedEntry e :: (dedupFilter sources tbl' rest).1,
       (dedupFilter sources tbl' rest).2) := by
  simp [dedupFilter, h]

/-- One step of the dedup filter on a dropped entry. -/
lemma dedupFilter_cons_drop (sources : List LogSource) (tbl tbl' : SeenTable)
    (e : LogEntry) (rest : List LogEntry)
    (h : isDuplicateLog tbl (hashedEntry e) (lookupSource sources e.Source) =
         (true, tbl')) :
    dedupFilter sources tbl (e :: rest) = dedupFilter sources tbl' rest := by
  simp [dedupFilter, h]

/-- Every entry accepted after a table state that already records `v` for
    hash `h` (by a dedup-enabled source, with that hash) is at least one
    hour newer than `v`. -/
lemma dedupFilter_future_gap (sources : List LogSource) :
    ∀ (entries : List LogEntry) (tbl : SeenTable) (h : String) (v : Int),
      lookupSeen tbl h = some v →
      ∀ e ∈ (dedupFilter sources tbl entries).1,
        (lookupSource sources e.Source).Deduplicate = true →
        generateLogHash e = h → v + hourNs ≤ e.Timestamp := by
  intro entries
  induction entries with
  | nil =>
    intro tbl h v hv e he
    simp [dedupFilter] at he
  | cons e0 rest ih =>
    intro tbl h v hv e he hflag hhash
    by_cases hd : (lookupSource sources e0.Source).Deduplicate = true
    · cases hlk : lookupSeen tbl (generateLogHash e0) with
      | none =>
        rw [dedupFilter_cons_accept sources tbl _ e0 rest
          (isDuplicateLog_new tbl (hashedEntry e0) _ hd (by simpa using hlk))] at he
        have hne : generateLogHash e0 ≠ h := by
          intro hEq
          rw [hEq, hv] at hlk
          cases hlk
        rcases List.mem_cons.mp he with rfl | he'
        · exact absurd (by simpa using hhash) hne
        · refine ih _ h v ?_ e he' hflag hhash
          rw [generateLogHash_hashedEntry, lookupSeen_setSeen_ne tbl _ h _ hne]
          exact hv
      | some lastSeen =>
        by_cases hwin : e0.Timestamp - lastSeen < hourNs
        · rw [dedupFilter_cons_drop sources tbl tbl e0 rest
            (isDuplicateLog_recent tbl (hashedEntry e0) _ lastSeen hd
              (by simpa using hlk) (by simpa using hwin))] at he
          exact ih tbl h v hv e he hflag hhash
        · rw [dedupFilter_cons_accept sources tbl _ e0 rest
            (isDuplicateLog_stale tbl (hashedEntry e0) _ lastSeen hd
              (by simpa using hlk)
              (by simp only [hashedEntry_Timestamp]; omega))] at he
          by_cases hhe : generateLogHash e0 = h
          · have hv' : lastSeen = v := by
              rw [hhe, hv] at hlk
              exact (Option.some.inj hlk).symm
            rcases List.mem_cons.mp he with rfl | he'
            · simp only [hashedEntry_Timestamp]
              omega
            · have hlkS : lookupSeen
                  (setSeen tbl (generateLogHash (hashedEntry e0))
                    (hashedEntry e0).Timestamp) h = some e0.Timestamp := by
                rw [generateLogHash_hashedEntry, hashedEntry_Timestamp, hhe]
                exact lookupSeen_setSeen_self tbl h e0.Timestamp
              have hrec := ih _ h e0.Timestamp hlkS e he' hflag hhash
              have hpos : 0 < hourNs := by norm_num [hourNs, nsPerSecond]
              omega
          · rcases List.mem_cons.mp he with rfl | he'
            · exact absurd (by simpa using hhash) hhe
            · refine ih _ h v ?_ e he' hflag hhash
              rw [generateLogHash_hashedEntry,
                lookupSeen_setSeen_ne tbl _ h _ hhe]
              exact hv
    · have hdf : (lookupSource sources e0.Source).Deduplicate = false := by
        revert hd
        cases (lookupSource sources e0.Source).Deduplicate <;> simp
      rw [dedupFilter_cons_accept sources tbl tbl e0 rest
        (isDuplicateLog_nodedup tbl (hashedEntry e0) _ hdf)] at he
      rcases List.mem_cons.mp he with rfl | he'
      · exact absurd (by simpa using hflag) hd
      · exact ih tbl h v hv e he' hflag hhash

/-- Any two entries accepted by the dedup filter with the same hash, both
    from dedup-enabled sources, are at least one hour apart (in order). -/
lemma dedupFilter_pairwise_gap (sources : List LogSource) :
    ∀ (entries : List LogEntry) (tbl : SeenTable),
      List.Pairwise
        (fun a b => generateLogHash a = generateLogHash b →
          (lookupSource sources a.Source).Deduplicate = true →
          (lookupSource sources b.Source).Deduplicate = true →
          a.Timestamp + hourNs ≤ b.Timestamp)
        (dedupFilter sources tbl entries).1 := by
  intro entries
  induction entries with
  | nil =>
    intro tbl
    simp [dedupFilter]
  | cons e0 rest ih =>
    intro tbl
    by_cases hd : (lookupSource sources e0.Source).Deduplicate = true
    · cases hlk : lookupSeen tbl (generateLogHash e0) with
      | none =>
        rw [dedupFilter_cons_accept sources tbl _ e0 rest
          (isDuplicateLog_new tbl (hashedEntry e0) _ hd (by simpa using hlk))]
        refine List.Pairwise.cons ?_ (ih _)
        intro b hb heq hfa hfb
        exact dedupFilter_future_gap sources rest _ _ _
          (lookupSeen_setSeen_self tbl _ _) b hb hfb heq.symm
      | some lastSeen =>
        by_cases hwin : e0.Timestamp - lastSeen < hourNs
        · rw [dedupFilter_cons_drop sources tbl tbl e0 rest
            (isDuplicateLog_recent tbl (hashedEntry e0) _ lastSeen hd
              (by simpa using hlk) (by simpa using hwin))]
          exact ih tbl
        · rw [dedupFilter_cons_accept sources tbl _ e0 rest
            (isDuplicateLog_stale tbl (hashedEntry e0) _ lastSeen hd
              (by simpa using hlk)
              (by simp only [hashedEntry_Timestamp]; omega))]
          refine List.Pairwise.cons ?_ (ih _)
          intro b hb heq hfa hfb
          exact dedupFilter_future_gap sources rest _ _ _
            (lookupSeen_setSeen_self tbl _ _) b hb hfb heq.symm
    · have hdf : (lookupSource sources e0.Source).Deduplicate = false := by
        revert hd
        cases (lookupSource sources e0.Source).Deduplicate <;> simp
      rw [dedupFilter_cons_accept sources tbl tbl e0 rest
        (isDuplicateLog_nodedup tbl (hashedEntry e0) _ hdf)]
      refine List.Pairwise.cons ?_ (ih _)
      intro b hb heq hfa hfb
      exact absurd (by simpa using hfa) hd

/-- C3: the dedup decision is — hash absent: record and accept; present
    with gap < 1 hour: drop without touching the table; present with gap
    ≥ 1 hour: update and accept.  Consequently, for a dedup-enabled source,
    at most one entry with a given (source, type, container, content)
    quadruple is accepted within any 1-hour window. -/
theorem isDuplicateLog_dedupWindow (sources : List LogSource) (tbl : SeenTable)
    (entries : List LogEntry) (src : LogSource) (e : LogEntry)
    (S T C : String) (X : List Char) (w : Int) :
    (src.Deduplicate = true →
       lookupSeen tbl (generateLogHash e) = none →
       isDuplicateLog tbl e src =
         (false, setSeen tbl (generateLogHash e) e.Timestamp)) ∧
    (∀ lastSeen, src.Deduplicate = true →
       lookupSeen tbl (generateLogHash e) = some lastSeen →
       e.Timestamp - lastSeen < hourNs →
       isDuplicateLog tbl e src = (true, tbl)) ∧
    (∀ lastSeen, src.Deduplicate = true →
       lookupSeen tbl (generateLogHash e) = some lastSeen →
       hourNs ≤ e.Timestamp - lastSeen →
       isDuplicateLog tbl e src =
         (false, setSeen tbl (generateLogHash e) e.Timestamp)) ∧
    ((lookupSource sources S).Deduplicate = true →
       ((dedupFilter sources tbl entries).1.filter
           (fun a => decide (a.Source = S) && decide (a.Type_ = T) &&
                     decide (a.Container = C) && decide (a.Content = X) &&
                     decide (w ≤ a.Timestamp) &&
                     decide (a.Timestamp < w + hourNs))).length ≤ 1) := by
  refine ⟨fun hd hlk => isDuplicateLog_new tbl e src hd hlk,
          fun lastSeen hd hlk hwin => isDuplicateLog_recent tbl e src lastSeen hd hlk hwin,
          fun lastSeen hd hlk hwin => isDuplicateLog_stale tbl e src lastSeen hd hlk hwin,
          ?_⟩
  intro hflag
  have hsub : ((dedupFilter sources tbl entries).1.filter
      (fun a => decide (a.Source = S) && decide (a.Type_ = T) &&
                decide (a.Container = C) && decide (a.Content = X) &&
                decide (w ≤ a.Timestamp) &&
                decide (a.Timestamp < w + hourNs))).Sublist
      (dedupFilter sources tbl entries).1 := List.filter_sublist _
  have hpw := (dedupFilter_pairwise_gap sources entries tbl).sublist hsub
  rcases hfl : (dedupFilter sources tbl entries).1.filter
      (fun a => decide (a.Source = S) && decide (a.Type_ = T) &&
                decide (a.Container = C) && decide (a.Content = X) &&
                decide (w ≤ a.Timestamp) &&
                decide (a.Timestamp < w + hourNs)) with _ | ⟨a, tl⟩
  · simp [hfl]
  · rcases tl with _ | ⟨b, t⟩
    · simp [hfl]
    · exfalso
      rw [hfl] at hpw
      have hab := (List.pairwise_cons.mp hpw).1 b (List.mem_cons_self b t)
      have hamem : a ∈ (dedupFilter sources tbl entries).1.filter
          (fun a => decide (a.Source = S) && decide (a.Type_ = T) &&
                    decide (a.Container = C) && decide (a.Content = X) &&
                    decide (w ≤ a.Timestamp) &&
                    decide (a.Timestamp < w + hourNs)) := by
        rw [hfl]
        exact List.mem_cons_self a (b :: t)
      have hbmem : b ∈ (dedupFilter sources tbl entries).1.filter
          (fun a => decide (a.Source = S) && decide (a.Type_ = T) &&
                    decide (a.Container = C) && decide (a.Content = X) &&
                    decide (w ≤ a.Timestamp) &&
                    decide (a.Timestamp < w + hourNs)) := by
        rw [hfl]
        exact List.mem_cons_of_mem a (List.mem_cons_self b t)
      have hPa := List.of_mem_filter hamem
      have hPb := List.of_mem_filter hbmem
      simp only [Bool.and_eq_true, decide_eq_true_eq] at hPa hPb
      obtain ⟨⟨⟨⟨⟨haS, haT⟩, haC⟩, haX⟩, haW1⟩, haW2⟩ := hPa
      obtain ⟨⟨⟨⟨⟨hbS, hbT⟩, hbC⟩, hbX⟩, hbW1⟩, hbW2⟩ := hPb
      have hga : generateLogHash a = generateLogHash b := by
        simp only [generateLogHash, sha256hex, haS, haT, haC, haX,
          hbS, hbT, hbC, hbX]
      have hfa : (lookupSource sources a.Source).Deduplicate = true := by
        rw [haS]
        exact hflag
      have hfb : (lookupSource sources b.Source).Deduplicate = true := by
        rw [hbS]
        exact hflag
      have hgap := hab hga hfa hfb
      omega

/-- C3 witness: a batch with the same quadruple at 0s and at 30min yields
    at most one accepted entry in the window starting at 0. -/
theorem isDuplicateLog_dedupWindow_witness :
    ((dedupFilter [dedupSource] [] [entryAt0, entryAt30min]).1.filter
        (fun a => decide (a.Source = "s") && decide (a.Type_ = "") &&
                  decide (a.Container = "") &&
                  decide (a.Content = "boom".toList) &&
                  decide ((0 : Int) ≤ a.Timestamp) &&
                  decide (a.Timestamp < 0 + hourNs))).length ≤ 1 :=
  (isDuplicateLog_dedupWindow [dedupSource] [] [entryAt0, entryAt30min]
      dedupSource entryAt0 "s" "" "" "boom".toList 0).2.2.2 (by decide)

/-! ### Theorems: docker high-water mark (C1) -/

/-- Any entry produced from a docker log line is strictly newer than `since`
    (also when its timestamp is the wall clock fallback). -/
lemma dockerLineEntry_gt (re : List Char → List Char → Bool) (now : Int)
    (source : LogSource) (since : Int) (container : String) (raw : List Char)
    (e : LogEntry) (h : dockerLineEntry re now source since container raw = some e) :
    since < e.Timestamp := by
  unfold dockerLineEntry at h
  by_cases h1 : trimChars raw = []
  · simp [h1] at h
  · rw [if_neg h1] at h
    split_ifs at h with h2 h3
    cases h
    exact h2

/-- Every entry collected by `collectDockerLogSince` is strictly newer than
    `since`. -/
lemma mem_collectDockerLogSince_gt (re : List Char → List Char → Bool)
    (now : Int) (env : DockerEnv) (source : LogSource) (since : Int)
    (e : LogEntry) (he : e ∈ collectDockerLogSince re now env source since) :
    since < e.Timestamp := by
  have hcont : ∀ (c : String), e ∈ dockerContainerEntries re now env source since c →
      since < e.Timestamp := by
    intro c hc
    unfold dockerContainerEntries at hc
    by_cases hce : c = ""
    · simp [hce] at hc
    · rw [if_neg hce] at hc
      cases hlog : env.logsOf c with
      | error msg =>
        rw [hlog] at hc
        cases hc
      | ok out =>
        rw [hlog] at hc
        obtain ⟨raw, -, hsome⟩ := List.mem_filterMap.mp hc
        exact dockerLineEntry_gt re now source since c raw e hsome
  unfold collectDockerLogSince at he
  by_cases hall : source.AllContainers
  · rw [if_pos hall] at he
    cases hps : env.ps with
    | error msg =>
      rw [hps] at he
      cases he
    | ok out =>
      rw [hps] at he
      obtain ⟨c, -, hc⟩ := List.mem_flatMap.mp he
      exact hcont c hc
  · rw [if_neg hall] at he
    obtain ⟨c, -, hc⟩ := List.mem_flatMap.mp he
    exact hcont c hc

/-- The high-water-mark fold either leaves the initial value (all entries
    older or equal) or returns an attained upper bound of the timestamps. -/
lemma hwmFold_spec (l : List LogEntry) (init : Int) :
    (l.foldl (fun t e => if t < e.Timestamp then e.Timestamp else t) init = init ∧
       ∀ e ∈ l, e.Timestamp ≤ init) ∨
    (∃ e ∈ l,
       l.foldl (fun t e => if t < e.Timestamp then e.Timestamp else t) init =
         e.Timestamp ∧
       init < l.foldl (fun t e => if t < e.Timestamp then e.Timestamp else t) init ∧
       ∀ e' ∈ l, e'.Timestamp ≤
         l.foldl (fun t e => if t < e.Timestamp then e.Timestamp else t) init) := by
  induction l generalizing init with
  | nil => exact Or.inl ⟨rfl, by simp⟩
  | cons e t ih =>
    simp only [List.foldl_cons]
    by_cases hstep : init < e.Timestamp
    · rw [if_pos hstep]
      rcases ih e.Timestamp with ⟨heq, hbound⟩ | ⟨e', he', heq, hlt, hbound⟩
      · refine Or.inr ⟨e, List.mem_cons_self e t, heq, ?_, ?_⟩
        · rw [heq]
          exact hstep
        · intro e' he'
          rw [heq]
          rcases List.mem_cons.mp he' with rfl | hmem
          · exact le_refl _
          · exact hbound e' hmem
      · refine Or.inr ⟨e', List.mem_cons_of_mem e he', heq, ?_, ?_⟩
        · omega
        · intro e'' he''
          rcases List.mem_cons.mp he'' with rfl | hmem
          · omega
          · exact hbound e'' hmem
    · rw [if_neg hstep]
      rcases ih init with ⟨heq, hbound⟩ | ⟨e', he', heq, hlt, hbound⟩
      · refine Or.inl ⟨heq, ?_⟩
        intro e' he'
        rcases List.mem_cons.mp he' with rfl | hmem
        · omega
        · exact hbound e' hmem
      · refine Or.inr ⟨e', List.mem_cons_of_mem e he', heq, hlt, ?_⟩
        intro e'' he''
        rcases List.mem_cons.mp he'' with rfl | hmem
        · omega
        · exact hbound e'' hmem

/-- The entries of a docker tick are exactly those of the collection. -/
lemma runDockerLogTick_fst (re : List Char → List Char → Bool) (now : Int)
    (env : DockerEnv) (source : LogSource) (last : Int) :
    (runDockerLogTick re now env source last).1 =
      collectDockerLogSince re now env source last := by
  unfold runDockerLogTick
  split <;> rfl

/-- C1: every entry emitted by a docker tick is strictly newer than the
    high-water mark `last` before the tick (lines with parsed or wall-clock
    timestamp ≤ `last` are dropped), and after the tick the mark equals the
    newest emitted timestamp (unchanged when nothing was emitted). -/
theorem dockerTick_highWaterMark (re : List Char → List Char → Bool)
    (now : Int) (env : DockerEnv) (source : LogSource) (last : Int) :
    (∀ e ∈ (runDockerLogTick re now env source last).1, last < e.Timestamp) ∧
    ((runDockerLogTick re now env source last).1 = [] →
       (runDockerLogTick re now env source last).2 = last) ∧
    ((runDockerLogTick re now env source last).1 ≠ [] →
       (∃ e ∈ (runDockerLogTick re now env source last).1,
          (runDockerLogTick re now env source last).2 = e.Timestamp) ∧
       (∀ e ∈ (runDockerLogTick re now env source last).1,
          e.Timestamp ≤ (runDockerLogTick re now env source last).2)) := by
  have hgt : ∀ e ∈ (runDockerLogTick re now env source last).1,
      last < e.Timestamp := by
    rw [runDockerLogTick_fst]
    exact fun e he => mem_collectDockerLogSince_gt re now env source last e he
  refine ⟨hgt, ?_, ?_⟩
  · intro hnil
    unfold runDockerLogTick
    rw [runDockerLogTick_fst] at hnil
    simp [hnil]
  · intro hne
    rw [runDockerLogTick_fst] at hne
    have hsnd : (runDockerLogTick re now env source last).2 =
        (collectDockerLogSince re now env source last).foldl
          (fun t e => if t < e.Timestamp then e.Timestamp else t) last := by
      unfold runDockerLogTick
      split
      · rename_i hemp
        rw [List.isEmpty_iff] at hemp
        exact absurd hemp hne
      · rfl
    rw [runDockerLogTick_fst, hsnd]
    rcases hwmFold_spec (collectDockerLogSince re now env source last) last with
      ⟨heq, hbound⟩ | ⟨e', he', heq, hlt, hbound⟩
    · obtain ⟨e0, he0⟩ := List.exists_mem_of_ne_nil _ hne
      have h1 := hbound e0 he0
      have h2 := mem_collectDockerLogSince_gt re now env source last e0 he0
      omega
    · exact ⟨⟨e', he', heq⟩, hbound⟩

/-- C1 witness: the tick emits an entry newer than the mark 0 and raises
    the mark to the newest emitted timestamp. -/
theorem dockerTick_highWaterMark_witness :
    (∃ e ∈ (runDockerLogTick reExact 5 oneLineDockerEnv webDockerSource 0).1,
       (runDockerLogTick reExact 5 oneLineDockerEnv webDockerSource 0).2 =
         e.Timestamp) ∧
    (∀ e ∈ (runDockerLogTick reExact 5 oneLineDockerEnv webDockerSource 0).1,
       e.Timestamp ≤
         (runDockerLogTick reExact 5 oneLineDockerEnv webDockerSource 0).2) :=
  (dockerTick_highWaterMark reExact 5 oneLineDockerEnv webDockerSource 0).2.2
    (by decide)

/-! ### Theorems: file collector direct strategy (C5) -/

lemma splitNL_nil : splitNL [] = [[]] := rfl

lemma splitNL_cons (c : Char) (cs : List Char) :
    splitNL (c :: cs) =
      (if c = '\n' then [] :: splitNL cs
       else
         match splitNL cs with
         | s :: rest => (c :: s) :: rest
         | [] => [[c]]) := rfl

lemma splitNL_ne_nil (cs : List Char) : splitNL cs ≠ [] := by
  induction cs with
  | nil => simp [splitNL_nil]
  | cons c cs ih =>
    rw [splitNL_cons]
    by_cases hc : c = '\n'
    · simp [hc]
    · rw [if_neg hc]
      cases hS : splitNL cs with
      | nil => simp
      | cons s rest => simp

/-- The `ReadString` loop yields exactly the non-final newline-separated
    segments, each with its terminating newline. -/
lemma readTerminatedLines_eq (cs : List Char) :
    readTerminatedLines cs =
      (splitNL cs).dropLast.map (fun l => l ++ ['\n']) := by
  induction cs with
  | nil => rfl
  | cons c cs ih =>
    by_cases hc : c = '\n'
    · subst hc
      rw [readTerminatedLines, if_pos rfl, splitNL_cons, if_pos rfl,
        List.dropLast_cons_of_ne_nil (splitNL_ne_nil cs)]
      simp [ih]
    · rw [readTerminatedLines, if_neg hc, splitNL_cons, if_neg hc]
      cases hS : splitNL cs with
      | nil => exact absurd hS (splitNL_ne_nil cs)
      | cons s rest =>
        cases hrest : rest with
        | nil =>
          rw [ih, hS, hrest]
          rfl
        | cons s2 rest2 =>
          rw [ih, hS, hrest]
          simp [List.dropLast_cons₂]

lemma isCutSpace_newline : isCutSpace '\n' = true := rfl

lemma dropWhile_all_append {p : Char → Bool} (l m : List Char)
    (h : ∀ c ∈ l, p c = true) :
    List.dropWhile p (l ++ m) = List.dropWhile p m := by
  induction l with
  | nil => rfl
  | cons c t ih =>
    rw [List.cons_append, List.dropWhile_cons,
      if_pos (h c (List.mem_cons_self c t))]
    exact ih (fun c' hc' => h c' (List.mem_cons_of_mem c hc'))

/-- Trimming is blind to a terminating newline. -/
lemma trimChars_append_newline (l : List Char) :
    trimChars (l ++ ['\n']) = trimChars l := by
  unfold trimChars
  by_cases h : (List.dropWhile isCutSpace l).isEmpty
  · rw [List.dropWhile_append, if_pos h]
    rw [List.isEmpty_iff] at h
    rw [h]
    simp [List.dropWhile, isCutSpace_newline]
  · rw [List.dropWhile_append, if_neg h, List.reverse_append]
    simp [List.dropWhile_cons, isCutSpace_newline]

/-- `fileLineEntry` ignores the terminating newline of a chunk. -/
lemma fileLineEntry_append_newline (re : List Char → List Char → Bool)
    (now : Int) (source : LogSource) (x : List Char) :
    fileLineEntry re now source (x ++ ['\n']) = fileLineEntry re now source x := by
  unfold fileLineEntry
  rw [trimChars_append_newline]

/-- The read-loop body, as a filter of trimmed lines followed by entry
    construction. -/
lemma filterMap_fileLineEntry_eq (re : List Char → List Char → Bool)
    (now : Int) (source : LogSource) (l : List (List Char)) :
    l.filterMap (fileLineEntry re now source) =
      ((l.map trimChars).filter
          (fun x => !x.isEmpty && shouldIncludeLogLine re x source)).map
        (fun x =>
          { Source := source.Name, Type_ := source.Type_, Container := "",
            Content := (parseLogTimestamp now x).2,
            Timestamp := (parseLogTimestamp now x).1,
            Level := detectLogLevel (parseLogTimestamp now x).2,
            Hash := "" }) := by
  induction l with
  | nil => rfl
  | cons raw t ih =>
    simp only [List.filterMap_cons, List.map_cons, List.filter_cons]
    by_cases h1 : trimChars raw = []
    · have hnone : fileLineEntry re now source raw = none := by
        simp [fileLineEntry, h1]
      have hempty : (trimChars raw).isEmpty = true := by
        simp [h1]
      rw [hnone, hempty]
      simpa using ih
    · have hnonempty : (trimChars raw).isEmpty = false := by
        simpa using h1
      by_cases h2 : shouldIncludeLogLine re (trimChars raw) source = true
      · have hsome : fileLineEntry re now source raw =
            some { Source := source.Name, Type_ := source.Type_,
                   Container := "",
                   Content := (parseLogTimestamp now (trimChars raw)).2,
                   Timestamp := (parseLogTimestamp now (trimChars raw)).1,
                   Level := detectLogLevel
                     (parseLogTimestamp now (trimChars raw)).2,
                   Hash := "" } := by
          simp [fileLineEntry, h1, h2]
        rw [hsome, hnonempty, h2]
        simpa using ih
      · have hnone : fileLineEntry re now source raw = none := by
          simp [fileLineEntry, h1, h2]
        have h2' : shouldIncludeLogLine re (trimChars raw) source = false := by
          simpa using h2
        rw [hnone, hnonempty, h2']
        simpa using ih

/-- One direct tick reads exactly the newline-terminated lines of the slice. -/
lemma readTerminatedLines_filterMap_eq (re : List Char → List Char → Bool)
    (now : Int) (source : LogSource) (slice : List Char) :
    (readTerminatedLines slice).filterMap (fileLineEntry re now source) =
      fileTickSpecEntries re now source slice := by
  rw [readTerminatedLines_eq, List.filterMap_map]
  have hcg : List.filterMap (fileLineEntry re now source ∘ fun l => l ++ ['\n'])
      (splitNL slice).dropLast =
      List.filterMap (fileLineEntry re now source) (splitNL slice).dropLast :=
    List.filterMap_congr
      (fun x _ => fileLineEntry_append_newline re now source x)
  rw [hcg]
  exact filterMap_fileLineEntry_eq re now source (splitNL slice).dropLast

/-- C5 (amended): a direct-strategy tick first resets the position to 0 when
    the file shrank (rotation), then emits exactly one entry per
    newline-terminated line of `[position, N)` that is non-empty after
    trimming and passes the filters (a final unterminated fragment is not
    emitted), and always leaves `last_position = N`. -/
theorem collectFileLog_direct_spec (re : List Char → List Char → Bool)
    (now : Int) (source : LogSource) (content : List Char)
    (lastPosition : Nat) :
    (collectFileLogFromPosition re now source content lastPosition).2 =
      content.length ∧
    (collectFileLogFromPosition re now source content lastPosition).1 =
      fileTickSpecEntries re now source
        (content.drop
          (if content.length < lastPosition then 0 else lastPosition)) := by
  unfold collectFileLogFromPosition
  by_cases hred : content.length < lastPosition
  · simp only [if_pos hred]
    by_cases hN : content.length ≤ 0
    · have hlen : content.length = 0 := by omega
      have hcontent : content = [] := List.length_eq_zero.mp hlen
      rw [if_pos hN]
      subst hcontent
      exact ⟨rfl, rfl⟩
    · rw [if_neg hN]
      exact ⟨rfl, readTerminatedLines_filterMap_eq re now source (content.drop 0)⟩
  · simp only [if_neg hred]
    by_cases hN : content.length ≤ lastPosition
    · have heq : lastPosition = content.length := by omega
      rw [if_pos hN]
      subst heq
      refine ⟨rfl, ?_⟩
      rw [List.drop_length]
      rfl
    · rw [if_neg hN]
      exact ⟨rfl, readTerminatedLines_filterMap_eq re now source
        (content.drop lastPosition)⟩

/-- C5 counterexample: a 5-byte file `hello` with no terminating newline,
    read from position 0, emits nothing — although `hello` is the one
    non-empty line of the range and passes the filters — while
    `last_position` still advances to 5. -/
theorem collectFileLog_unterminated_line_dropped :
    (collectFileLogFromPosition reExact 0 zeroLogSource "hello".toList 0).1 = [] ∧
    (collectFileLogFromPosition reExact 0 zeroLogSource "hello".toList 0).2 = 5 ∧
    splitNL "hello".toList = ["hello".toList] ∧
    trimChars "hello".toList = "hello".toList ∧
    "hello".toList ≠ [] ∧
    shouldIncludeLogLine reExact "hello".toList zeroLogSource = true := by
  decide

/-! ### Theorems: timestamp parsing order (C4) -/

/-- The ISO regexes with and without milliseconds never match the same
    line: after the shared base, one needs whitespace and the other `.`. -/
lemma matchTs_iso_disjoint (line : List Char) :
    matchTsPattern scanISOTs line = none ∨
    matchTsPattern scanISOMsTs line = none := by
  cases hbase : scanISOBase line with
  | none =>
    left
    unfold matchTsPattern scanISOTs
    rw [hbase]
  | some rest =>
    cases rest with
    | nil =>
      left
      unfold matchTsPattern scanISOTs
      rw [hbase]
    | cons c t =>
      by_cases hsp : isGoSpace c = true
      · right
        have hne : c ≠ '.' := by
          intro hEq
          rw [hEq] at hsp
          exact absurd hsp (by decide)
        unfold matchTsPattern scanISOMsTs
        rw [hbase]
        simp [scanChar, hne]
      · left
        unfold matchTsPattern scanISOTs
        rw [hbase]
        simp [hsp]

lemma tryFormat_none_of_match_none (scan : List Char → Option (List Char))
    (p : List Char → Option Int) (line : List Char)
    (h : matchTsPattern scan line = none) : tryFormat scan p line = none := by
  unfold tryFormat
  rw [h]

lemma tryFormat_match_ne_none (scan : List Char → Option (List Char))
    (p : List Char → Option Int) (line : List Char) (r : Int × List Char)
    (h : tryFormat scan p line = some r) : matchTsPattern scan line ≠ none := by
  intro hnone
  rw [tryFormat_none_of_match_none scan p line hnone] at h
  cases h

/-- C4: `parseLogTimestamp` is the first-success scan of the six formats of
    the specification, in the specified order (RFC 3339 with fraction and
    offset; RFC 3339; syslog; ISO 8601 with optional `.mmm`; Unix seconds;
    Unix milliseconds); the winning capture yields the timestamp and the
    trailing content, and a line matching no format yields the wall clock
    and the whole line. -/
theorem parseLogTimestamp_spec_order (now : Int) (line : List Char) :
    parseLogTimestamp now line =
      (specFormats.findSome? (fun f => f line)).getD (now, line) := by
  cases h1 : tryFormat scanRFC3339NanoTs parseRFC3339NanoCap line with
  | some r =>
    simp [parseLogTimestamp, codePatterns, specFormats, List.findSome?_cons, h1]
  | none =>
  cases h2 : tryFormat scanRFC3339Ts parseRFC3339Cap line with
  | some r =>
    simp [parseLogTimestamp, codePatterns, specFormats, List.findSome?_cons,
      h1, h2]
  | none =>
  cases h3 : tryFormat scanSyslogTs parseSyslogCap line with
  | some r =>
    simp [parseLogTimestamp, codePatterns, specFormats, List.findSome?_cons,
      h1, h2, h3]
  | none =>
  cases h4 : tryFormat scanISOTs parseISOCap line with
  | some r =>
    have h5 : tryFormat scanISOMsTs parseISOMsCap line = none := by
      rcases matchTs_iso_disjoint line with hnone | hnone
      · exact absurd hnone (tryFormat_match_ne_none _ _ line r h4)
      · exact tryFormat_none_of_match_none _ _ line hnone
    simp [parseLogTimestamp, codePatterns, specFormats, isoOptionalMs,
      List.findSome?_cons, h1, h2, h3, h4, h5]
  | none =>
  cases h5 : tryFormat scanISOMsTs parseISOMsCap line with
  | some r =>
    simp [parseLogTimestamp, codePatterns, specFormats, isoOptionalMs,
      List.findSome?_cons, h1, h2, h3, h4, h5]
  | none =>
  cases h6 : tryFormat scanUnixTs parseUnixCap line with
  | some r =>
    simp [parseLogTimestamp, codePatterns, specFormats, isoOptionalMs,
      List.findSome?_cons, h1, h2, h3, h4, h5, h6]
  | none =>
  cases h7 : tryFormat scanUnixMsTs parseUnixMsCap line with
  | some r =>
    simp [parseLogTimestamp, codePatterns, specFormats, isoOptionalMs,
      List.findSome?_cons, h1, h2, h3, h4, h5, h6, h7]
  | none =>
    simp [parseLogTimestamp, codePatterns, specFormats, isoOptionalMs,
      List.findSome?_cons, h1, h2, h3, h4, h5, h6, h7]

end Beacon
